import Mathlib

/-!
Verification of the reconciliation and mapping core of `stars-to-notion`.

The repository ships three variants of the same synchronization script:
the `stars-to-notion` variant (second half of `src/index.js`, modelled in
namespace `StarsToNotion`) and the earlier `notion-github-sync` variant
(first half of `src/index.js`, modelled in namespace `NotionGithubSync`).
Shared pieces — the source-record shape, the destination property values,
JavaScript object/truthiness semantics and lodash's `_.chunk` — are
modelled once at top level.
-/

/-- JavaScript truthiness of an optional string value: `undefined`/`null`
and the empty string are falsy, every other string is truthy. -/
def truthyStr : Option String → Bool
  | none => false
  | some s => !(s == "")

/-- A typed Notion property value, covering the shapes the field mappers
emit: title, number, url, date, rich text, select and multi-select. -/
inductive PropValue : Type
  | title (content : String)
  | number (n : Int)
  | url (u : String)
  | date (start : String)
  | richText (content : String)
  | select (name : String)
  | multiSelect (names : List String)
deriving DecidableEq

/-- One starred repository as pushed onto `stars` by `getGitHubStarsForUser`:
`id`, `title`, `url`, `starred`, `labels` (topics), `stargazers`, `forks`,
`language`, `description`, `pushed`, `watchers`, `created`, `homepage`,
`size`. Fields that the upstream API may return as `null`/absent are
`Option`-valued. -/
structure SourceRecord : Type where
  id : Int
  title : String
  url : String
  starred : String
  labels : Option (List String)
  stargazers : Int
  forks : Int
  language : Option String
  description : Option String
  pushed : String
  watchers : Int
  created : String
  homepage : Option String
  size : Int
deriving DecidableEq

/-- One `{ pageId, starId }` pair as returned by `getStarsFromNotionDatabase`. -/
structure NotionStar : Type where
  pageId : String
  starId : Int
deriving DecidableEq

/-- Property read on a JavaScript object with integer-valued keys:
`m[k]`, `undefined` (here `none`) when the key is absent. -/
def objGet (m : List (Int × String)) (k : Int) : Option String :=
  match m with
  | [] => none
  | kv :: t => if kv.1 = k then some kv.2 else objGet t k

/-- Property write on a JavaScript object with integer-valued keys:
`m[k] = v` replaces the value of an existing key in place and otherwise
appends a fresh key. -/
def objSet (m : List (Int × String)) (k : Int) (v : String) : List (Int × String) :=
  if m.any (fun kv => kv.1 == k) then
    m.map (fun kv => if kv.1 = k then (kv.1, v) else kv)
  else
    m ++ [(k, v)]

/-- lodash `_.chunk array size`: splits the list into groups of `size`
elements, the final group holding the remainder; `size = 0` yields `[]`. -/
def chunk (size : Nat) (l : List α) : List (List α) :=
  if size = 0 then []
  else if l.isEmpty then []
  else l.take size :: chunk size (l.drop size)
termination_by l.length
decreasing_by
  rename_i hsz hl
  have h1 : 0 < size := Nat.pos_of_ne_zero hsz
  have h2 : l.length ≠ 0 := by
    cases l with
    | nil => simp at hl
    | cons a t => simp
  simp only [List.length_drop]
  omega

namespace StarsToNotion

/-- `OPERATION_BATCH_SIZE` of the `stars-to-notion` variant. -/
def OPERATION_BATCH_SIZE : Nat := 10

/-- `setInitialGitHubToNotionIdMap`: populates the local
`gitHubStarsIdToNotionPageId` object with `starId ↦ pageId` for every pair
returned by the destination reader, in iteration order. -/
def setInitialGitHubToNotionIdMap (currentStars : List NotionStar) : List (Int × String) :=
  currentStars.foldl (fun m cs => objSet m cs.starId cs.pageId) []

/-- An element of `pagesToUpdate`: `{ ...star, pageId }`. -/
structure UpdateOp : Type where
  star : SourceRecord
  pageId : String
deriving DecidableEq

/-- `getNotionOperations`: walks the source snapshot in order; a star whose
`id` looks up to a truthy `pageId` is appended (with that `pageId`) to
`pagesToUpdate`, every other star to `pagesToCreate`. The identity index
`gitHubStarsIdToNotionPageId` is passed explicitly. -/
def getNotionOperations (idx : List (Int × String)) :
    List SourceRecord → List SourceRecord × List UpdateOp
  | [] => ([], [])
  | star :: rest =>
    let r := getNotionOperations idx rest
    match objGet idx star.id with
    | some pageId =>
      if pageId = "" then (star :: r.1, r.2) else (r.1, ⟨star, pageId⟩ :: r.2)
    | none => (star :: r.1, r.2)

/-- `getPropertiesFromStar` of the `stars-to-notion` variant: builds the
`item` object with ten unconditional entries and four entries that are
`null` when the source value is falsy (`Topics` only when `labels` itself
is nullish — an empty array is truthy), then drops the `null` entries via
`Object.fromEntries(Object.entries(item).filter(([_, v]) => v != null))`. -/
def getPropertiesFromStar (star : SourceRecord) : List (String × PropValue) :=
  ([("Name", some (PropValue.title star.title)),
    ("Star ID", some (PropValue.number star.id)),
    ("URL", some (PropValue.url star.url)),
    ("Starred", some (PropValue.date star.starred)),
    ("Created", some (PropValue.date star.created)),
    ("Stargazers", some (PropValue.number star.stargazers)),
    ("Watchers", some (PropValue.number star.watchers)),
    ("Size (Kb)", some (PropValue.number star.size)),
    ("Forks", some (PropValue.number star.forks)),
    ("Pushed", some (PropValue.date star.pushed)),
    ("Homepage",
      match star.homepage with
      | some s => if s = "" then none else some (PropValue.url s)
      | none => none),
    ("Description",
      match star.description with
      | some s => if s = "" then none else some (PropValue.richText s)
      | none => none),
    ("Language",
      match star.language with
      | some s => if s = "" then none else some (PropValue.select s)
      | none => none),
    ("Topics",
      match star.labels with
      | some ls => some (PropValue.multiSelect ls)
      | none => none)] : List (String × Option PropValue)).filterMap
    (fun kv => kv.2.map (fun v => (kv.1, v)))

/-- The four environment variables the `stars-to-notion` variant requires;
`none` models an unset variable. -/
structure Env : Type where
  GH_STARS_USER : Option String
  GH_USER_TOKEN : Option String
  NOTION_KEY : Option String
  NOTION_DATABASE_ID : Option String
deriving DecidableEq

/-- The startup guard `process.env.GH_STARS_USER && process.env.GH_USER_TOKEN
&& process.env.NOTION_KEY && process.env.NOTION_DATABASE_ID`. -/
def validateEnv (e : Env) : Bool :=
  truthyStr e.GH_STARS_USER && truthyStr e.GH_USER_TOKEN &&
    truthyStr e.NOTION_KEY && truthyStr e.NOTION_DATABASE_ID

/-- An observable program event: a process exit with a code, or a network
call to a named endpoint. -/
inductive Event : Type
  | exit (code : Nat)
  | network (endpoint : String)
deriving DecidableEq

/-- Program-order event trace of the `stars-to-notion` entry point: the
environment guard runs first (before either API client performs any
request); when it fails the script logs and calls `process.exit(1)`,
otherwise the run queries Notion, lists the user's stars on GitHub, and
issues the create/update calls. -/
def programEvents (e : Env) : List Event :=
  if validateEnv e then
    [Event.network "notion.databases.query",
     Event.network "github.activity.listReposStarredByUser",
     Event.network "notion.pages.create",
     Event.network "notion.pages.update"]
  else
    [Event.exit 1]

end StarsToNotion

namespace NotionGithubSync

/-- `OPERATION_BATCH_SIZE` of the `notion-github-sync` variant. -/
def OPERATION_BATCH_SIZE : Nat := 1

/-- `getPropertiesFromStar` of the `notion-github-sync` variant (the first
field-mapper in `src/index.js`): nine unconditional entries (no `Pushed`),
then `Homepage`, `Language`, `Description` and `Topics` added under
truthiness guards, in that source order. The `Homepage` entry is written
as `{ url }`, i.e. it carries the repository `url`, not `homepage`.
`Object.keys(labels)` throws a `TypeError` when `labels` is nullish, so
the call is fallible: `none` models that exception. -/
def getPropertiesFromStar (star : SourceRecord) : Option (List (String × PropValue)) :=
  match star.labels with
  | none => none
  | some labels =>
    some
      ([("Repository ID", PropValue.number star.id),
        ("Name", PropValue.title star.title),
        ("Repo URL", PropValue.url star.url),
        ("Starred", PropValue.date star.starred),
        ("Created", PropValue.date star.created),
        ("Stargazers", PropValue.number star.stargazers),
        ("Watchers", PropValue.number star.watchers),
        ("Size", PropValue.number star.size),
        ("Forks", PropValue.number star.forks)]
       ++ (if truthyStr star.homepage then [("Homepage", PropValue.url star.url)] else [])
       ++ (match star.language with
           | some s => if s = "" then [] else [("Language", PropValue.select s)]
           | none => [])
       ++ (match star.description with
           | some s => if s = "" then [] else [("Description", PropValue.richText s)]
           | none => [])
       ++ (if labels.length > 0 then [("Topics", PropValue.multiSelect labels)] else []))

/-- The batch loop shared by `createPages` and `updatePages`, abstracted
over which individual API call fails. For each batch in order, all of the
batch's operations are dispatched concurrently via `Promise.all`; if any
of them rejects, the surrounding `try`/`catch` (which wraps the whole
loop) catches the error, so no further batch is dispatched. Returns the
operations that were dispatched and whether an error was caught. -/
def dispatchBatches (fail : α → Bool) : List (List α) → List α × Bool
  | [] => ([], false)
  | b :: bs =>
    if b.any fail then (b, true)
    else
      let r := dispatchBatches fail bs
      (b ++ r.1, r.2)

/-- `createPages`: chunks `pagesToCreate` by `OPERATION_BATCH_SIZE` and
runs the batch loop inside a single `try`/`catch`. -/
def createPages (fail : α → Bool) (pagesToCreate : List α) : List α × Bool :=
  dispatchBatches fail (chunk OPERATION_BATCH_SIZE pagesToCreate)

end NotionGithubSync

/-- A concrete source record with identifier `i` and no optional fields,
used to instantiate the general theorems. -/
def sampleStar (i : Int) : SourceRecord :=
  { id := i, title := "repo", url := "https://example.com/repo",
    starred := "2024-01-01", labels := some [], stargazers := 0, forks := 0,
    language := none, description := none, pushed := "2024-01-02",
    watchers := 0, created := "2023-01-01", homepage := none, size := 0 }

/-- A concrete source record whose `description`, `homepage` and topic list
are all empty (present but empty, as the upstream API can return them). -/
def emptyFieldsStar : SourceRecord :=
  { id := 5, title := "repo", url := "https://example.com/repo",
    starred := "2024-01-01", labels := some [], stargazers := 1, forks := 2,
    language := none, description := some "", pushed := "2024-01-03",
    watchers := 3, created := "2023-05-05", homepage := some "", size := 4 }

/-- A concrete source record with a homepage that differs from its
repository URL. -/
def homeStar : SourceRecord :=
  { id := 9, title := "r", url := "https://example.com/r",
    starred := "2024-02-02", labels := some ["lean"], stargazers := 0,
    forks := 0, language := some "TypeScript", description := some "d",
    pushed := "2024-02-03", watchers := 0, created := "2023-02-02",
    homepage := some "https://homepage.example", size := 0 }

/-! ## Helper lemmas on the JavaScript object model -/

theorem objGet_objSet_map (m : List (Int × String)) (k : Int) (v : String)
    (h : m.any (fun kv => kv.1 == k) = true) :
    objGet (m.map (fun kv => if kv.1 = k then (kv.1, v) else kv)) k = some v := by
  induction m with
  | nil => simp at h
  | cons p t ih =>
    by_cases hp : p.1 = k
    · simp [objGet, hp]
    · simp only [List.any_cons, Bool.or_eq_true, beq_iff_eq] at h
      rcases h with h | h
      · exact absurd h hp
      · simpa [objGet, hp] using ih (by simpa using h)

theorem objGet_map_ne (m : List (Int × String)) (k k' : Int) (v : String)
    (h : k' ≠ k) :
    objGet (m.map (fun kv => if kv.1 = k then (kv.1, v) else kv)) k' = objGet m k' := by
  induction m with
  | nil => simp [objGet]
  | cons p t ih =>
    by_cases hp : p.1 = k
    · have hkk' : ¬ k = k' := fun he => h he.symm
      simp [objGet, hp, hkk', ih]
    · simp [objGet, hp, ih]

theorem objGet_append_single_self (m : List (Int × String)) (k : Int) (v : String)
    (h : m.any (fun kv => kv.1 == k) = false) :
    objGet (m ++ [(k, v)]) k = some v := by
  induction m with
  | nil => simp [objGet]
  | cons p t ih =>
    simp only [List.any_cons, Bool.or_eq_false_iff, beq_eq_false_iff_ne, ne_eq] at h
    simpa [objGet, h.1] using ih (by simpa using h.2)

theorem objGet_append_single_ne (m : List (Int × String)) (k k' : Int) (v : String)
    (h : k' ≠ k) :
    objGet (m ++ [(k, v)]) k' = objGet m k' := by
  induction m with
  | nil =>
    have : ¬ k = k' := fun he => h he.symm
    simp [objGet, this]
  | cons p t ih =>
    by_cases hp : p.1 = k'
    · simp [objGet, hp]
    · simp [objGet, hp, ih]

theorem objGet_objSet_self (m : List (Int × String)) (k : Int) (v : String) :
    objGet (objSet m k v) k = some v := by
  cases h : m.any (fun kv => kv.1 == k) with
  | true => simpa [objSet, h] using objGet_objSet_map m k v h
  | false =>
    rw [objSet, if_neg (by simp [h])]
    exact objGet_append_single_self m k v h

theorem objGet_objSet_ne (m : List (Int × String)) (k k' : Int) (v : String)
    (h : k' ≠ k) :
    objGet (objSet m k v) k' = objGet m k' := by
  cases hany : m.any (fun kv => kv.1 == k) with
  | true =>
    rw [objSet, if_pos (by simp [hany])]
    exact objGet_map_ne m k k' v h
  | false =>
    rw [objSet, if_neg (by simp [hany])]
    exact objGet_append_single_ne m k k' v h

theorem any_keys_eq_isSome (m : List (Int × String)) (k : Int) :
    m.any (fun kv => kv.1 == k) = (objGet m k).isSome := by
  induction m with
  | nil => simp [objGet]
  | cons p t ih =>
    by_cases hp : p.1 = k
    · simp [objGet, hp]
    · simp [objGet, hp, ih]

theorem length_objSet (m : List (Int × String)) (k : Int) (v : String) :
    (objSet m k v).length
      = if m.any (fun kv => kv.1 == k) = true then m.length else m.length + 1 := by
  by_cases h : m.any (fun kv => kv.1 == k) = true
  · simp [objSet, h]
  · simp [objSet, h]

/-! ## Helper lemmas on the identity-index build -/

theorem objGet_foldl_of_not_mem (l : List NotionStar) (m : List (Int × String)) (k : Int)
    (h : ∀ cs ∈ l, cs.starId ≠ k) :
    objGet (l.foldl (fun acc cs => objSet acc cs.starId cs.pageId) m) k = objGet m k := by
  induction l generalizing m with
  | nil => rfl
  | cons c t ih =>
    have hc : c.starId ≠ k := h c (by simp)
    have ht : ∀ cs ∈ t, cs.starId ≠ k := fun cs hcs => h cs (by simp [hcs])
    calc objGet ((c :: t).foldl (fun acc cs => objSet acc cs.starId cs.pageId) m) k
        = objGet (objSet m c.starId c.pageId) k := ih (objSet m c.starId c.pageId) ht
      _ = objGet m k := objGet_objSet_ne m c.starId k c.pageId (fun he => hc he.symm)

theorem objGet_foldl_of_nodup (l : List NotionStar) (m : List (Int × String))
    (hnd : (l.map NotionStar.starId).Nodup) :
    ∀ cs ∈ l, objGet (l.foldl (fun acc x => objSet acc x.starId x.pageId) m) cs.starId
      = some cs.pageId := by
  induction l generalizing m with
  | nil => intro cs hcs; simp at hcs
  | cons c t ih =>
    simp only [List.map_cons, List.nodup_cons, List.mem_map] at hnd
    intro cs hcs
    rcases List.mem_cons.mp hcs with hcs | hcs
    · subst hcs
      have ht : ∀ x ∈ t, x.starId ≠ cs.starId := by
        intro x hx he
        exact hnd.1 ⟨x, hx, he⟩
      calc objGet ((cs :: t).foldl (fun acc x => objSet acc x.starId x.pageId) m) cs.starId
          = objGet (objSet m cs.starId cs.pageId) cs.starId :=
            objGet_foldl_of_not_mem t (objSet m cs.starId cs.pageId) cs.starId ht
        _ = some cs.pageId := objGet_objSet_self m cs.starId cs.pageId
    · exact ih (objSet m c.starId c.pageId) hnd.2 cs hcs

theorem length_foldl_of_nodup (l : List NotionStar) (m : List (Int × String))
    (hnd : (l.map NotionStar.starId).Nodup)
    (hfresh : ∀ cs ∈ l, objGet m cs.starId = none) :
    (l.foldl (fun acc x => objSet acc x.starId x.pageId) m).length
      = m.length + l.length := by
  induction l generalizing m with
  | nil => rfl
  | cons c t ih =>
    simp only [List.map_cons, List.nodup_cons, List.mem_map] at hnd
    have hany : m.any (fun kv => kv.1 == c.starId) = false := by
      rw [any_keys_eq_isSome, hfresh c (by simp)]
      rfl
    have hlen : (objSet m c.starId c.pageId).length = m.length + 1 := by
      rw [length_objSet, hany]
      simp
    have hfresh' : ∀ cs ∈ t, objGet (objSet m c.starId c.pageId) cs.starId = none := by
      intro cs hcs
      have hne : cs.starId ≠ c.starId := fun he => hnd.1 ⟨cs, hcs, he⟩
      rw [objGet_objSet_ne m c.starId cs.starId c.pageId hne]
      exact hfresh cs (by simp [hcs])
    calc ((c :: t).foldl (fun acc x => objSet acc x.starId x.pageId) m).length
        = (objSet m c.starId c.pageId).length + t.length := ih _ hnd.2 hfresh'
      _ = m.length + (t.length + 1) := by rw [hlen]; omega
      _ = m.length + (c :: t).length := by simp

/-! ## Claim theorems: identity index -/

/-- Claim C5: for every destination snapshot whose `externalId` (here
`starId`) values are pairwise distinct, the identity index built by
`setInitialGitHubToNotionIdMap` maps each `starId` to the `pageId` of the
pair carrying it, and the number of keys of the index equals the number of
distinct `starId` values of the snapshot. -/
theorem setInitialMap_unique_spec (currentStars : List NotionStar)
    (hnd : (currentStars.map NotionStar.starId).Nodup) :
    (∀ cs ∈ currentStars,
        objGet (StarsToNotion.setInitialGitHubToNotionIdMap currentStars) cs.starId
          = some cs.pageId) ∧
    (StarsToNotion.setInitialGitHubToNotionIdMap currentStars).length
      = ((currentStars.map NotionStar.starId).dedup).length := by
  constructor
  · exact objGet_foldl_of_nodup currentStars [] hnd
  · have h1 : (StarsToNotion.setInitialGitHubToNotionIdMap currentStars).length
        = currentStars.length := by
      have := length_foldl_of_nodup currentStars [] hnd (fun cs _ => rfl)
      simpa [StarsToNotion.setInitialGitHubToNotionIdMap] using this
    rw [h1, List.Nodup.dedup hnd, List.length_map]

/-- Witness for C5 at a concrete two-row snapshot. -/
theorem setInitialMap_unique_spec_witness :
    (∀ cs ∈ [NotionStar.mk "p1" 1, NotionStar.mk "p2" 2],
        objGet (StarsToNotion.setInitialGitHubToNotionIdMap
          [NotionStar.mk "p1" 1, NotionStar.mk "p2" 2]) cs.starId = some cs.pageId) ∧
    (StarsToNotion.setInitialGitHubToNotionIdMap
        [NotionStar.mk "p1" 1, NotionStar.mk "p2" 2]).length
      = (([NotionStar.mk "p1" 1, NotionStar.mk "p2" 2].map NotionStar.starId).dedup).length :=
  setInitialMap_unique_spec [NotionStar.mk "p1" 1, NotionStar.mk "p2" 2] (by decide)

/-- Claim C9: when the destination snapshot carries the same `starId`
twice, the later pair in iteration order wins: if a pair occurs and no
later pair carries the same `starId`, the index maps that `starId` to the
pair's `pageId`. -/
theorem setInitialMap_later_wins (pre post : List NotionStar) (c : NotionStar)
    (hpost : ∀ cs ∈ post, cs.starId ≠ c.starId) :
    objGet (StarsToNotion.setInitialGitHubToNotionIdMap (pre ++ c :: post)) c.starId
      = some c.pageId := by
  unfold StarsToNotion.setInitialGitHubToNotionIdMap
  rw [List.foldl_append, List.foldl_cons]
  calc objGet (post.foldl (fun acc x => objSet acc x.starId x.pageId)
        (objSet (pre.foldl (fun acc x => objSet acc x.starId x.pageId) [])
          c.starId c.pageId)) c.starId
      = objGet (objSet (pre.foldl (fun acc x => objSet acc x.starId x.pageId) [])
          c.starId c.pageId) c.starId :=
        objGet_foldl_of_not_mem post _ c.starId hpost
    _ = some c.pageId := objGet_objSet_self _ c.starId c.pageId

/-- Witness for C9: a duplicated `starId = 7`, the later `pageId` wins. -/
theorem setInitialMap_later_wins_witness :
    objGet (StarsToNotion.setInitialGitHubToNotionIdMap
        ([NotionStar.mk "p1" 7] ++ NotionStar.mk "p2" 7 :: [])) 7 = some "p2" :=
  setInitialMap_later_wins [NotionStar.mk "p1" 7] [] (NotionStar.mk "p2" 7)
    (by intro cs hcs; simp at hcs)

/-! ## Claim theorems: reconciler -/

/-- Helper: a successful lookup comes from a pair of the object. -/
theorem objGet_mem (m : List (Int × String)) (k : Int) (v : String)
    (h : objGet m k = some v) : (k, v) ∈ m := by
  induction m with
  | nil => simp [objGet] at h
  | cons p t ih =>
    rcases p with ⟨a, b⟩
    by_cases hp : a = k
    · subst hp
      simp [objGet] at h
      simp [h]
    · simp [objGet, hp] at h
      exact List.mem_cons_of_mem _ (ih h)

/-- Claim C1 (amended): provided every `pageId` stored in the identity
index is a non-empty string, `getNotionOperations` partitions the source
snapshot exactly: `pagesToCreate` is the subsequence of records whose `id`
is absent from the index, `pagesToUpdate` (projected back to its records)
is the subsequence of records whose `id` is present, and each update
operation carries exactly the `pageId` the index maps its `id` to. Both
outputs are stated as `List.filter` of the input, so they preserve the
input's relative order. -/
theorem getNotionOperations_partitions (idx : List (Int × String))
    (stars : List SourceRecord) (hidx : ∀ kv ∈ idx, kv.2 ≠ "") :
    (StarsToNotion.getNotionOperations idx stars).1
        = stars.filter (fun s => (objGet idx s.id).isNone) ∧
    (StarsToNotion.getNotionOperations idx stars).2.map StarsToNotion.UpdateOp.star
        = stars.filter (fun s => (objGet idx s.id).isSome) ∧
    ∀ op ∈ (StarsToNotion.getNotionOperations idx stars).2,
        objGet idx op.star.id = some op.pageId := by
  induction stars with
  | nil => exact ⟨rfl, rfl, fun op hop => by simp [StarsToNotion.getNotionOperations] at hop⟩
  | cons star rest ih =>
    rcases ih with ⟨ih1, ih2, ih3⟩
    cases hg : objGet idx star.id with
    | none =>
      refine ⟨?_, ?_, ?_⟩
      · simp [StarsToNotion.getNotionOperations, hg, List.filter_cons, ih1]
      · simp [StarsToNotion.getNotionOperations, hg, List.filter_cons, ih2]
      · intro op hop
        simp only [StarsToNotion.getNotionOperations, hg] at hop
        exact ih3 op hop
    | some p =>
      have hp : p ≠ "" := hidx (star.id, p) (objGet_mem idx star.id p hg)
      refine ⟨?_, ?_, ?_⟩
      · simp [StarsToNotion.getNotionOperations, hg, hp, List.filter_cons, ih1]
      · simp [StarsToNotion.getNotionOperations, hg, hp, List.filter_cons, ih2]
      · intro op hop
        simp only [StarsToNotion.getNotionOperations, hg, hp, if_neg,
          not_false_iff, List.mem_cons] at hop
        rcases hop with hop | hop
        · subst hop; exact hg
        · exact ih3 op hop

/-- Witness for C1 at a concrete index and two-record snapshot: the star
with `id = 1` is updated with `pageId = "p1"`, the star with `id = 2` is
created. -/
theorem getNotionOperations_partitions_witness :
    (StarsToNotion.getNotionOperations [((1 : Int), "p1")] [sampleStar 1, sampleStar 2]).1
        = [sampleStar 1, sampleStar 2].filter
            (fun s => (objGet [((1 : Int), "p1")] s.id).isNone) ∧
    (StarsToNotion.getNotionOperations [((1 : Int), "p1")]
          [sampleStar 1, sampleStar 2]).2.map StarsToNotion.UpdateOp.star
        = [sampleStar 1, sampleStar 2].filter
            (fun s => (objGet [((1 : Int), "p1")] s.id).isSome) ∧
    ∀ op ∈ (StarsToNotion.getNotionOperations [((1 : Int), "p1")]
          [sampleStar 1, sampleStar 2]).2,
        objGet [((1 : Int), "p1")] op.star.id = some op.pageId :=
  getNotionOperations_partitions [((1 : Int), "p1")] [sampleStar 1, sampleStar 2]
    (by intro kv hkv; simp at hkv; simp [hkv])

/-- Counterexample to C1 as stated: with the index `{1 ↦ ""}` (a key that
is present but maps to an empty — falsy — string), the record with
`id = 1` lands in `pagesToCreate` although its `externalId` is a key of
the index, so `pagesToCreate` does not contain exactly the records whose
`externalId` is absent from the index. -/
theorem getNotionOperations_truthiness_counterexample :
    (StarsToNotion.getNotionOperations [((1 : Int), "")] [sampleStar 1]).1
        = [sampleStar 1] ∧
    (objGet [((1 : Int), "")] (sampleStar 1).id).isSome = true := by
  constructor
  · rfl
  · rfl

/-! ## Claim theorems: writer batching -/

/-- `chunk` of the empty list is empty. -/
theorem chunk_nil (size : Nat) : chunk size ([] : List α) = [] := by
  rw [chunk]
  simp

/-- Unfolding `chunk` on a non-empty list with positive size. -/
theorem chunk_cons_eq (size : Nat) (hsz : size ≠ 0) (l : List α) (hl : l ≠ []) :
    chunk size l = l.take size :: chunk size (l.drop size) := by
  cases l with
  | nil => exact absurd rfl hl
  | cons a t => rw [chunk]; simp [hsz]

/-- `chunk` of a non-empty list is non-empty. -/
theorem chunk_ne_nil (size : Nat) (hsz : size ≠ 0) (l : List α) (hl : l ≠ []) :
    chunk size l ≠ [] := by
  rw [chunk_cons_eq size hsz l hl]
  simp

/-- Claim C3: for a list of `N` operations and batch size `B > 0`, the
writer's chunking (`_.chunk`, as used by `createPages`/`updatePages`)
yields exactly `⌈N / B⌉` batches; every batch except possibly the last has
exactly `B` elements, and the last batch has `N % B` elements when `B`
does not divide `N` and `B` elements when it does. -/
theorem chunk_batches (B : Nat) (hB : 0 < B) (l : List α) :
    (chunk B l).length = (l.length + B - 1) / B ∧
    (∀ c ∈ (chunk B l).dropLast, c.length = B) ∧
    (∀ c, (chunk B l).getLast? = some c →
        c.length = if l.length % B = 0 then B else l.length % B) := by
  have hB0 : B ≠ 0 := Nat.pos_iff_ne_zero.mp hB
  generalize hn : l.length = n
  induction n using Nat.strong_induction_on generalizing l with
  | _ n ih =>
    cases l with
    | nil =>
      have hn0 : n = 0 := by simpa using hn.symm
      subst hn0
      rw [chunk_nil]
      refine ⟨?_, ?_, ?_⟩
      · simpa using (Nat.div_eq_of_lt (show B - 1 < B by omega)).symm
      · simp
      · simp
    | cons a t =>
      have hne : (a :: t) ≠ [] := by simp
      have hn1 : 1 ≤ n := by rw [← hn]; simp
      have heq := chunk_cons_eq B hB0 (a :: t) hne
      have hdl : (n + B - 1) / B = (n - 1) / B + 1 := by
        have h1 : n + B - 1 = (n - 1) + B := by omega
        rw [h1, Nat.add_div_right _ hB]
      by_cases hNB : n ≤ B
      · -- everything fits into a single batch
        have hdrop : (a :: t).drop B = [] := by
          apply List.eq_nil_of_length_eq_zero
          rw [List.length_drop, hn]
          omega
        rw [heq, hdrop, chunk_nil]
        have htake : ((a :: t).take B).length = n := by
          rw [List.length_take, hn]
          omega
        refine ⟨?_, ?_, ?_⟩
        · rw [hdl, Nat.div_eq_of_lt (by omega)]
          simp
        · simp
        · intro c hc
          have hx : ([(a :: t).take B] : List (List α)).getLast? = some ((a :: t).take B) := by
            simp
          rw [hx, Option.some.injEq] at hc
          subst hc
          rw [htake]
          by_cases hmod : n % B = 0
          · have : n = B := by
              rcases Nat.lt_or_ge n B with hlt | hge
              · rw [Nat.mod_eq_of_lt hlt] at hmod; omega
              · omega
            simp [hmod, this]
          · have hltB : n < B := by
              rcases Nat.lt_or_ge n B with h | h
              · exact h
              · exfalso
                apply hmod
                have hnb : n = B := by omega
                rw [hnb, Nat.mod_self]
            rw [if_neg hmod, Nat.mod_eq_of_lt hltB]
      · -- at least one full batch followed by the chunks of the rest
        push_neg at hNB
        have hrest_len : ((a :: t).drop B).length = n - B := by
          rw [List.length_drop, hn]
        have hrest_ne : (a :: t).drop B ≠ [] := by
          intro hnil
          rw [hnil] at hrest_len
          simp at hrest_len
          omega
        have hlt : n - B < n := by omega
        obtain ⟨ihl, ihd, ihg⟩ := ih (n - B) hlt ((a :: t).drop B) hrest_len
        have hcr_ne : chunk B ((a :: t).drop B) ≠ [] :=
          chunk_ne_nil B hB0 _ hrest_ne
        obtain ⟨c0, cr', hcr⟩ := List.exists_cons_of_ne_nil hcr_ne
        have htake : ((a :: t).take B).length = B := by
          rw [List.length_take, hn]
          omega
        have hmod : (n - B) % B = n % B := by
          have h2 : n = (n - B) + B := by omega
          conv_rhs => rw [h2]
          rw [Nat.add_mod_right]
        refine ⟨?_, ?_, ?_⟩
        · rw [heq]
          simp only [List.length_cons]
          rw [ihl, hdl]
          have h3 : n - B + B - 1 = (n - B - 1) + B := by omega
          rw [h3, Nat.add_div_right _ hB]
          have h4 : n - 1 = (n - B - 1) + B := by omega
          rw [h4, Nat.add_div_right _ hB]
        · rw [heq, hcr]
          intro c hc
          rw [show ((a :: t).take B :: c0 :: cr').dropLast
              = (a :: t).take B :: (c0 :: cr').dropLast from rfl] at hc
          rcases List.mem_cons.mp hc with hc | hc
          · subst hc; exact htake
          · exact ihd c (hcr ▸ hc)
        · intro c hc
          rw [heq, hcr, List.getLast?_cons_cons] at hc
          have := ihg c (hcr ▸ hc)
          rw [hmod] at this
          exact this

/-- Witness for C3 at `N = 7`, `B = 3`: three batches, the first two of
size `3`, the last of size `7 % 3 = 1`. -/
theorem chunk_batches_witness :
    (chunk 3 [1, 2, 3, 4, 5, 6, 7]).length = ([1, 2, 3, 4, 5, 6, 7].length + 3 - 1) / 3 ∧
    (∀ c ∈ (chunk 3 [1, 2, 3, 4, 5, 6, 7]).dropLast, c.length = 3) ∧
    (∀ c, (chunk 3 [1, 2, 3, 4, 5, 6, 7]).getLast? = some c →
        c.length = if [1, 2, 3, 4, 5, 6, 7].length % 3 = 0 then 3
          else [1, 2, 3, 4, 5, 6, 7].length % 3) :=
  chunk_batches 3 (by omega) [1, 2, 3, 4, 5, 6, 7]

/-- Helper for C4: the batch loop dispatches every batch before the first
failing one, dispatches the whole failing batch (its operations were all
started by `Promise.all`), catches the error, and dispatches nothing
afterwards. -/
theorem dispatchBatches_first_failure (fail : α → Bool) (pre post : List (List α))
    (b : List α) (hpre : ∀ c ∈ pre, c.any fail = false) (hb : b.any fail = true) :
    NotionGithubSync.dispatchBatches fail (pre ++ b :: post) = (pre.flatten ++ b, true) := by
  induction pre with
  | nil =>
    simp only [List.nil_append, NotionGithubSync.dispatchBatches, hb, if_pos]
    simp
  | cons c cs ih =>
    have hc : c.any fail = false := hpre c (by simp)
    have hcs : ∀ x ∈ cs, x.any fail = false := fun x hx => hpre x (by simp [hx])
    have hstep : NotionGithubSync.dispatchBatches fail ((c :: cs) ++ b :: post)
        = (c ++ (NotionGithubSync.dispatchBatches fail (cs ++ b :: post)).1,
           (NotionGithubSync.dispatchBatches fail (cs ++ b :: post)).2) := by
      simp [NotionGithubSync.dispatchBatches, hc]
    rw [hstep, ih hcs]
    simp

/-- Claim C4 (amended): in `createPages` (and the identically structured
`updatePages`), when the batches of the operation list decompose as
clean batches `pre`, a batch `b` containing a failing operation, and
remaining batches `post`, every operation of `pre` and of `b` is
dispatched, the failure is caught (the function returns normally), and no
operation of `post` is dispatched: a single failing write aborts all
subsequent batches of that function call. -/
theorem createPages_first_failure (fail : α → Bool) (ops : List α)
    (pre post : List (List α)) (b : List α)
    (hchunk : chunk NotionGithubSync.OPERATION_BATCH_SIZE ops = pre ++ b :: post)
    (hpre : ∀ c ∈ pre, c.any fail = false) (hb : b.any fail = true) :
    NotionGithubSync.createPages fail ops = (pre.flatten ++ b, true) := by
  rw [NotionGithubSync.createPages, hchunk]
  exact dispatchBatches_first_failure fail pre post b hpre hb

/-- Witness for C4 (amended) on the spec's three-operation scenario with
the second operation failing. -/
theorem createPages_first_failure_witness :
    NotionGithubSync.createPages (fun n => n == 2) [1, 2, 3] = ([1] ++ [2], true) :=
  createPages_first_failure (fun n => n == 2) [1, 2, 3] [[1]] [[3]] [2]
    (by simp [chunk, NotionGithubSync.OPERATION_BATCH_SIZE])
    (by intro c hc; simp at hc; simp [hc])
    (by simp)

/-- Counterexample to C4 as stated: three create operations with batch
size 1, the second fails. The claim promises that the first and third
still complete and later batches are dispatched; in the code the third
operation is never dispatched (the `try`/`catch` wraps the whole loop),
so the run of `createPages` ends after the failing batch. -/
theorem createPages_abort_counterexample :
    (NotionGithubSync.createPages (fun n => n == 2) [1, 2, 3]).1 = [1, 2] ∧
    (3 : Nat) ∉ (NotionGithubSync.createPages (fun n => n == 2) [1, 2, 3]).1 ∧
    (NotionGithubSync.createPages (fun n => n == 2) [1, 2, 3]).2 = true := by
  refine ⟨?_, ?_, ?_⟩ <;>
    simp [NotionGithubSync.createPages, NotionGithubSync.OPERATION_BATCH_SIZE, chunk,
      NotionGithubSync.dispatchBatches]

/-! ## Claim theorems: field mapper -/

/-- Claim C6: every source record, whatever its optional fields, is mapped
by the `stars-to-notion` field mapper to a property set that carries the
`Name`, reconciliation-key (`Star ID`), `URL`, `Starred`, `Created` and
`Pushed` entries. -/
theorem getPropertiesFromStar_required_fields (star : SourceRecord) :
    ((StarsToNotion.getPropertiesFromStar star).lookup "Name").isSome = true ∧
    ((StarsToNotion.getPropertiesFromStar star).lookup "Star ID").isSome = true ∧
    ((StarsToNotion.getPropertiesFromStar star).lookup "URL").isSome = true ∧
    ((StarsToNotion.getPropertiesFromStar star).lookup "Starred").isSome = true ∧
    ((StarsToNotion.getPropertiesFromStar star).lookup "Created").isSome = true ∧
    ((StarsToNotion.getPropertiesFromStar star).lookup "Pushed").isSome = true := by
  refine ⟨?_, ?_, ?_, ?_, ?_, ?_⟩ <;>
    simp [StarsToNotion.getPropertiesFromStar, List.lookup]

/-- Claim C2 (amended): a source record with empty `description`, empty
`homepage`, absent `language` and an empty (but present) topic list is
mapped to a property set with no `Description`, no `Homepage` and no
`Language` key; the `Topics` key however is still present, carrying an
empty multi-select (the code only omits `Topics` when `labels` is
nullish, and an empty array is truthy in JavaScript). -/
theorem getPropertiesFromStar_empty_optionals (star : SourceRecord)
    (hd : star.description = none ∨ star.description = some "")
    (hh : star.homepage = none ∨ star.homepage = some "")
    (hl : star.language = none)
    (ht : star.labels = some []) :
    (StarsToNotion.getPropertiesFromStar star).lookup "Description" = none ∧
    (StarsToNotion.getPropertiesFromStar star).lookup "Homepage" = none ∧
    (StarsToNotion.getPropertiesFromStar star).lookup "Language" = none ∧
    (StarsToNotion.getPropertiesFromStar star).lookup "Topics"
      = some (PropValue.multiSelect []) := by
  rcases hd with hd | hd <;> rcases hh with hh | hh <;>
    refine ⟨?_, ?_, ?_, ?_⟩ <;>
      simp [StarsToNotion.getPropertiesFromStar, List.lookup, hd, hh, hl, ht]

/-- Witness for C2 (amended) at the concrete all-empty record. -/
theorem getPropertiesFromStar_empty_optionals_witness :
    (StarsToNotion.getPropertiesFromStar emptyFieldsStar).lookup "Description" = none ∧
    (StarsToNotion.getPropertiesFromStar emptyFieldsStar).lookup "Homepage" = none ∧
    (StarsToNotion.getPropertiesFromStar emptyFieldsStar).lookup "Language" = none ∧
    (StarsToNotion.getPropertiesFromStar emptyFieldsStar).lookup "Topics"
      = some (PropValue.multiSelect []) :=
  getPropertiesFromStar_empty_optionals emptyFieldsStar (Or.inr rfl) (Or.inr rfl) rfl rfl

/-- Counterexample to C2 as stated: the record with empty `description`,
empty `homepage` and empty topic list is mapped to a property set that
DOES contain a `Topics` key (an empty multi-select), because an empty
array is truthy in JavaScript, contradicting the claim that no `Topics`
key is emitted at all. -/
theorem getPropertiesFromStar_topics_counterexample :
    emptyFieldsStar.description = some "" ∧
    emptyFieldsStar.homepage = some "" ∧
    emptyFieldsStar.labels = some [] ∧
    (StarsToNotion.getPropertiesFromStar emptyFieldsStar).lookup "Topics"
      = some (PropValue.multiSelect []) := ⟨rfl, rfl, rfl, rfl⟩

/-- Claim C7: the field mapper is deterministic and side-effect free: it
is a pure function, so equal input records yield equal property sets. -/
theorem getPropertiesFromStar_deterministic (s t : SourceRecord) (h : s = t) :
    StarsToNotion.getPropertiesFromStar s = StarsToNotion.getPropertiesFromStar t :=
  congrArg StarsToNotion.getPropertiesFromStar h

/-- Witness for C7 at a concrete record. -/
theorem getPropertiesFromStar_deterministic_witness :
    StarsToNotion.getPropertiesFromStar (sampleStar 1)
      = StarsToNotion.getPropertiesFromStar (sampleStar 1) :=
  getPropertiesFromStar_deterministic (sampleStar 1) (sampleStar 1) rfl

/-! ## Claim theorems: startup validation -/

/-- Claim C8: when any of the four required configuration values is
missing, the program's trace is exactly a `process.exit(1)` — a non-zero
exit — and contains no network call: the guard runs before any I/O and no
partial run is attempted. -/
theorem missing_env_exits_before_io (e : StarsToNotion.Env)
    (h : e.GH_STARS_USER = none ∨ e.GH_USER_TOKEN = none ∨
        e.NOTION_KEY = none ∨ e.NOTION_DATABASE_ID = none) :
    StarsToNotion.programEvents e = [StarsToNotion.Event.exit 1] ∧
    (1 : Nat) ≠ 0 ∧
    ∀ s, StarsToNotion.Event.network s ∉ StarsToNotion.programEvents e := by
  have hv : StarsToNotion.validateEnv e = false := by
    rcases h with h | h | h | h <;>
      simp [StarsToNotion.validateEnv, truthyStr, h]
  refine ⟨?_, by omega, ?_⟩
  · simp [StarsToNotion.programEvents, hv]
  · intro s
    simp [StarsToNotion.programEvents, hv]

/-- Witness for C8 with only the destination-collection identifier
missing. -/
theorem missing_env_exits_before_io_witness :
    StarsToNotion.programEvents
        (StarsToNotion.Env.mk (some "user") (some "tok") (some "key") none)
      = [StarsToNotion.Event.exit 1] ∧
    (1 : Nat) ≠ 0 ∧
    ∀ s, StarsToNotion.Event.network s ∉ StarsToNotion.programEvents
        (StarsToNotion.Env.mk (some "user") (some "tok") (some "key") none) :=
  missing_env_exits_before_io
    (StarsToNotion.Env.mk (some "user") (some "tok") (some "key") none)
    (Or.inr (Or.inr (Or.inr rfl)))

/-! ## Claim theorems: the first variant's Homepage property -/

/-- Claim C10: in the `notion-github-sync` field mapper, whenever the
record's `homepage` is truthy and the mapper returns a property set, the
emitted `Homepage` entry carries the repository `url`, not the `homepage`
value: the shorthand `item["Homepage"] = { url }` writes the destructured
`url` variable. -/
theorem homepage_carries_repo_url (star : SourceRecord)
    (props : List (String × PropValue))
    (hmap : NotionGithubSync.getPropertiesFromStar star = some props)
    (hhp : truthyStr star.homepage = true) :
    props.lookup "Homepage" = some (PropValue.url star.url) := by
  cases hlab : star.labels with
  | none => rw [NotionGithubSync.getPropertiesFromStar, hlab] at hmap; exact absurd hmap (by simp)
  | some ls =>
    rw [NotionGithubSync.getPropertiesFromStar, hlab, Option.some.injEq] at hmap
    subst hmap
    simp [List.lookup, hhp]

/-- Witness for C10: a concrete record whose `homepage` differs from its
repository `url`; the emitted `Homepage` value is the repository `url`. -/
theorem homepage_carries_repo_url_witness :
    (((NotionGithubSync.getPropertiesFromStar homeStar).getD []).lookup "Homepage")
      = some (PropValue.url homeStar.url) :=
  homepage_carries_repo_url homeStar ((NotionGithubSync.getPropertiesFromStar homeStar).getD [])
    rfl rfl

/-- Witness for C6 at a concrete record. -/
theorem getPropertiesFromStar_required_fields_witness :
    ((StarsToNotion.getPropertiesFromStar (sampleStar 1)).lookup "Name").isSome = true ∧
    ((StarsToNotion.getPropertiesFromStar (sampleStar 1)).lookup "Star ID").isSome = true ∧
    ((StarsToNotion.getPropertiesFromStar (sampleStar 1)).lookup "URL").isSome = true ∧
    ((StarsToNotion.getPropertiesFromStar (sampleStar 1)).lookup "Starred").isSome = true ∧
    ((StarsToNotion.getPropertiesFromStar (sampleStar 1)).lookup "Created").isSome = true ∧
    ((StarsToNotion.getPropertiesFromStar (sampleStar 1)).lookup "Pushed").isSome = true :=
  getPropertiesFromStar_required_fields (sampleStar 1)
